import Mathlib

set_option maxRecDepth 40000

/-!
Verification development for the Odoo → BigQuery batch synchronization
engine (`src/main.py`).  The Python source is shallowly embedded below:

* dynamically typed record values become the closed variant `Value`
  (Python floats are represented by an opaque-to-the-engine rational
  payload: the engine never inspects a float's numeric value);
* Python dicts carrying records become association lists `Record`;
* the external collaborators (Odoo RPC, BigQuery client, GCS/file
  checkpoint store) become fields of `SyncEnv` describing the responses
  the outside world gives to each call the engine makes;
* the mutable run state (`existing_ids`, the `total_*` counters) plus
  call traces (bulk-insert payloads, `unlink` id lists, checkpoint
  writes) become the structure `SyncState`, threaded through the loop.

Each definition names, where Lean's grammar allows, the Python function
it embeds.
-/

/-- The dynamically typed values that can appear in a fetched Odoo
record: the Python types None, bool, int, float, str, list, dict.
A float's payload is modelled as a rational number; the engine only
moves floats around and never computes with them. -/
inductive Value where
  | null : Value
  | bool (b : Bool) : Value
  | int (n : Int) : Value
  | float (q : Rat) : Value
  | str (s : String) : Value
  | list (vs : List Value) : Value
  | obj (fs : List (String × Value)) : Value

/-- A record is a Python dict: an association list from field name to
value (keys are unique in records coming from the source). -/
abbrev Record := List (String × Value)

mutual

/-- Model of `json.dumps` restricted to the `Value` domain, with the
separators Python uses by default (`", "` and `": "`).  String escaping
is simplified (plain quoting); no claim depends on escape sequences. -/
def jsonDumps : Value → String
  | Value.null => "null"
  | Value.bool true => "true"
  | Value.bool false => "false"
  | Value.int n => toString n
  | Value.float q => toString q
  | Value.str s => "\"" ++ s ++ "\""
  | Value.list vs => "[" ++ jsonDumpsList vs ++ "]"
  | Value.obj fs => "\x7b" ++ jsonDumpsObj fs ++ "\x7d"

def jsonDumpsList : List Value → String
  | [] => ""
  | [v] => jsonDumps v
  | v :: w :: vs => jsonDumps v ++ ", " ++ jsonDumpsList (w :: vs)

def jsonDumpsObj : List (String × Value) → String
  | [] => ""
  | [kv] => "\"" ++ kv.1 ++ "\": " ++ jsonDumps kv.2
  | kv :: kw :: kvs => "\"" ++ kv.1 ++ "\": " ++ jsonDumps kv.2 ++ ", " ++ jsonDumpsObj (kw :: kvs)

end

/-- Model of the Python test `value.strip() == ''` (main.py line 213):
true exactly when every character of the string is whitespace (so in
particular true for the empty string). -/
def strip_is_empty (s : String) : Bool :=
  s.data.all Char.isWhitespace

/-- The per-value body of `sanitize_record_for_bq` (main.py lines
197-217), with the branches in the source's order (first match wins):
None; empty list/dict; non-empty list/dict; bool; blank string; else
pass through. -/
def sanitizeValue : Value → Value
  | Value.null => Value.null
  | Value.list [] => Value.null
  | Value.obj [] => Value.null
  | Value.list (v :: vs) => Value.str (jsonDumps (Value.list (v :: vs)))
  | Value.obj (kv :: fs) => Value.str (jsonDumps (Value.obj (kv :: fs)))
  | Value.bool b => Value.str (if b then "true" else "false")
  | Value.str s => if strip_is_empty s then Value.null else Value.str s
  | v => v

/-- Embedding of `sanitize_record_for_bq` (main.py lines 194-218):
sanitize every field value, keeping keys and their order. -/
def sanitize_record_for_bq (record : Record) : Record :=
  record.map (fun kv => (kv.1, sanitizeValue kv.2))

/-- Embedding of `python_type_to_bq` (main.py lines 153-173): infer a
BigQuery column type from one sample Python value. -/
def python_type_to_bq : Value → String
  | Value.null => "STRING"
  | Value.bool _ => "STRING"
  | Value.int _ => "INTEGER"
  | Value.float _ => "FLOAT64"
  | Value.list _ => "STRING"
  | Value.obj _ => "STRING"
  | Value.str _ => "STRING"

/-- Model of Python's `table_id.split('.')` on the character list:
split at every dot, keeping empty parts. -/
def splitDotChars : List Char → List (List Char)
  | [] => [[]]
  | c :: rest =>
      let r := splitDotChars rest
      if c = '.' then [] :: r
      else
        match r with
        | [] => [[c]]
        | p :: ps => (c :: p) :: ps

/-- Model of Python's `table_id.split('.')` (structural recursion, so
that it evaluates inside the kernel; `String.splitOn` agrees on these
inputs but is defined by well-founded recursion). -/
def pySplitDot (s : String) : List String :=
  (splitDotChars s.data).map (fun cs => String.mk cs)

/-- Embedding of `generate_create_table_sql` (main.py lines 175-192):
split the dotted table id; with exactly three parts emit the CREATE
TABLE text, one `  name TYPE` line per field of the sample record. -/
def generate_create_table_sql (table_id : String) (record : Record) : Option String :=
  match pySplitDot table_id with
  | [project_id, dataset_id, table_name] =>
      let fields := record.map (fun kv => "  " ++ kv.1 ++ " " ++ python_type_to_bq kv.2)
      some ("CREATE TABLE `" ++ project_id ++ "." ++ dataset_id ++ "." ++ table_name ++ "` (\n"
        ++ String.intercalate ",\n" fields ++ "\n);")
  | _ => none

/-- Python dict lookup `r[k]` on a record, as an option (records from
the source have unique keys, so first match is the match). -/
def lookupField (r : Record) (k : String) : Option Value :=
  (r.find? (fun kv => kv.1 == k)).map (fun kv => kv.2)

/-- The integer id `r['id']` of a record.  The Python code always
accesses `r['id']` directly (KeyError if absent); the model totalises
with 0 — every engine decision depends only on these id values, so the
model and the source agree on all records that carry an integer id. -/
def recId (r : Record) : Int :=
  match lookupField r "id" with
  | some (Value.int n) => n
  | _ => 0

/-- The responses of the external collaborators (Odoo RPC, BigQuery,
checkpoint store) and the configuration of one run.  `fetchPage offset
limit window` is what `search_read` returns for that batch;
`insertResult offset` is what `insert_rows_json` does for the page
fetched at that offset (`Except.error ()` = the call throws,
`Except.ok errors` = it returns that list of per-row error indices,
`[]` meaning full success); `deleteOk offset` tells whether the
`unlink` call issued while processing that page succeeds. -/
structure SyncEnv where
  batchLimit : Nat
  bufferMinutes : Int
  lookbackDays : Int
  now : Int
  deleteSynced : Bool
  odooModel : String
  tableId : String
  tableExists : Bool
  sampleRecords : List Record
  existing0 : Finset Int
  fetchPage : Nat → Nat → Option (Int × Int) → List Record
  insertResult : Nat → Except Unit (List Nat)
  deleteOk : Nat → Bool

/-- The run state of `run_sync`: the mutable `existing_ids` set and the
`total_*` counters of main.py lines 335-340, plus observable call
traces: `fetchCalls` counts `fetch_records_batch` calls; `insertCalls`
records each bulk-insert payload with its row ids; `deleteCalls`
records each id list passed to `unlink`; `checkpointWrites` records
each timestamp passed to `update_last_synced_time`.  `lostOnThrow` is a
ghost accumulator: the number of new records on pages abandoned because
the bulk-insert call threw; it influences no behaviour. -/
structure SyncState where
  existing : Finset Int
  total_fetched : Int
  total_inserted : Int
  total_skipped : Int
  total_deleted : Int
  total_failed : Int
  lostOnThrow : Int
  fetchCalls : Nat
  insertCalls : List (List Record × List String)
  deleteCalls : List (List Int)
  checkpointWrites : List Int
  ddl : Option String

/-- The all-zero state the engine starts a run from, with the given
`existing_ids` set. -/
def initState (existing : Finset Int) : SyncState :=
  { existing := existing, total_fetched := 0, total_inserted := 0, total_skipped := 0,
    total_deleted := 0, total_failed := 0, lostOnThrow := 0, fetchCalls := 0,
    insertCalls := [], deleteCalls := [], checkpointWrites := [], ddl := none }

/-- Embedding of `get_existing_ids` (main.py lines 220-231): the set of
ids already present at the destination, as the warehouse reports it. -/
def get_existing_ids (env : SyncEnv) : Finset Int :=
  env.existing0

/-- Embedding of `update_last_synced_time` (main.py lines 73-82): write
the timestamp to the checkpoint store; in the model, append it to the
trace of checkpoint writes. -/
def update_last_synced_time (ts : Int) (writes : List Int) : List Int :=
  writes ++ [ts]

/-- Embedding of `fetch_records_batch` (main.py lines 233-257): one
paged `search_read` call at the given offset with the run's limit and
optional date window. -/
def fetch_records_batch (env : SyncEnv) (offset : Nat) (dateFilter : Option (Int × Int)) :
    List Record :=
  env.fetchPage offset env.batchLimit dateFilter

/-- The `unlink` call plus `total_deleted` accounting shared by both
reconciliation branches (main.py lines 413-421 and 432-440): the id
list is passed to the source delete call; the counter advances only
when the call does not throw. -/
def maybe_delete (env : SyncEnv) (offset : Nat) (ids : List Int) (st : SyncState) : SyncState :=
  let st := { st with deleteCalls := st.deleteCalls ++ [ids] }
  if env.deleteOk offset then { st with total_deleted := st.total_deleted + ids.length } else st

/-- The full-success branch of the bulk insert (main.py lines 423-440):
count all sanitized records as inserted, add every new record's id to
`existing_ids`, and delete all of them from the source if configured. -/
def reconcile_full_success (env : SyncEnv) (offset : Nat) (newRecords : List Record)
    (st : SyncState) : SyncState :=
  let insertedCount : Int := ((newRecords.map sanitize_record_for_bq).length : Int)
  let st := { st with existing := newRecords.foldl (fun s r => insert (recId r) s) st.existing }
  let st :=
    if env.deleteSynced ∧ 0 < insertedCount then
      maybe_delete env offset (newRecords.map recId) st
    else st
  { st with total_inserted := st.total_inserted + insertedCount }

/-- The partial-failure branch of the bulk insert (main.py lines
379-421): collect the set of failed indices, count them as failed, add
only the ids of records at non-failed indices to `existing_ids`, and
delete only those from the source if configured. -/
def reconcile_errors (env : SyncEnv) (offset : Nat) (newRecords : List Record)
    (errors : List Nat) (st : SyncState) : SyncState :=
  let failedIndices : Finset Nat := errors.toFinset
  let failedCount : Int := (failedIndices.card : Int)
  let successCount : Int :=
    ((newRecords.map sanitize_record_for_bq).length : Int) - failedCount
  let succeededRecords :=
    (newRecords.enum.filter (fun p => p.1 ∉ failedIndices)).map Prod.snd
  let st :=
    { st with existing := succeededRecords.foldl (fun s r => insert (recId r) s) st.existing }
  let insertedCount := successCount
  let st := { st with total_failed := st.total_failed + failedCount }
  let st :=
    if env.deleteSynced ∧ 0 < insertedCount then
      maybe_delete env offset (succeededRecords.map recId) st
    else st
  { st with total_inserted := st.total_inserted + insertedCount }

/-- The body of the draining loop for one fetched batch (main.py lines
350-446): count the fetch, drop duplicates against `existing_ids`,
count them as skipped, sanitize the survivors, attempt the bulk insert
with per-record row ids `{model}_{id}`, and reconcile its outcome.  A
thrown insert call abandons the page (only the ghost accumulator moves). -/
def process_batch (env : SyncEnv) (offset : Nat) (batch : List Record)
    (st : SyncState) : SyncState :=
  let st := { st with total_fetched := st.total_fetched + (batch.length : Int) }
  let newRecords := batch.filter (fun r => recId r ∉ st.existing)
  let st :=
    { st with total_skipped :=
        st.total_skipped + ((batch.length : Int) - (newRecords.length : Int)) }
  if newRecords.isEmpty then st
  else
    let sanitizedRecords := newRecords.map sanitize_record_for_bq
    let rowIds := sanitizedRecords.map (fun r => env.odooModel ++ "_" ++ toString (recId r))
    let st := { st with insertCalls := st.insertCalls ++ [(sanitizedRecords, rowIds)] }
    match env.insertResult offset with
    | Except.error _ =>
        { st with lostOnThrow := st.lostOnThrow + (newRecords.length : Int) }
    | Except.ok errors =>
        if errors.isEmpty then reconcile_full_success env offset newRecords st
        else reconcile_errors env offset newRecords errors st

/-- The draining loop of `run_sync` (main.py lines 342-455): fetch the
batch at `offset = k * BATCH_LIMIT`; stop on an empty batch; otherwise
process it, advance the offset, and stop when the advanced offset
reaches the safety cap `BATCH_LIMIT * 100`. -/
def sync_loop (env : SyncEnv) (dateFilter : Option (Int × Int)) (k : Nat)
    (st : SyncState) : SyncState :=
  let offset := k * env.batchLimit
  let batch := fetch_records_batch env offset dateFilter
  let st1 := { st with fetchCalls := st.fetchCalls + 1 }
  if batch.isEmpty then st1
  else
    let st2 := process_batch env offset batch st1
    if h : env.batchLimit * 100 ≤ offset + env.batchLimit then st2
    else sync_loop env dateFilter (k + 1) st2
termination_by 100 - k
decreasing_by
  simp only [not_le] at h
  have hk : k + 1 < 100 := by
    by_contra hk
    push_neg at hk
    have h1 : env.batchLimit * 100 ≤ env.batchLimit * (k + 1) :=
      Nat.mul_le_mul_left _ hk
    have h2 : env.batchLimit * (k + 1) = k * env.batchLimit + env.batchLimit := by ring
    omega
  omega

/-- Embedding of `run_sync` (main.py lines 260-475).  If the destination
table is absent: fetch one sample record and, when one exists, emit the
generated CREATE TABLE text, then terminate without syncing.  Otherwise
rebuild `existing_ids` from the destination, compute the optional date
window from the lookback/buffer configuration, and drain batches from
offset 0.  No checkpoint is written on either path:
`update_last_synced_time` is never invoked by `run_sync`. -/
def run_sync (env : SyncEnv) : SyncState :=
  if env.tableExists then
    let existing_ids := get_existing_ids env
    let dateFilter : Option (Int × Int) :=
      if env.lookbackDays ≠ -1 then
        some (env.now - env.lookbackDays * 1440, env.now - env.bufferMinutes)
      else none
    sync_loop env dateFilter 0 (initState existing_ids)
  else
    match env.sampleRecords with
    | [] => initState ∅
    | r :: _ => { initState ∅ with ddl := generate_create_table_sql env.tableId r }

-- ------------------------------------------------------------------
-- Helper lemmas about the sanitizer
-- ------------------------------------------------------------------

theorem strip_is_empty_bracketed (a x b : String) (ca : Char)
    (ha : a.data = [ca]) (hca : ca.isWhitespace = false) :
    strip_is_empty (a ++ x ++ b) = false := by
  simp [strip_is_empty, ha, hca]

theorem strip_is_empty_jsonDumps_list (v : Value) (vs : List Value) :
    strip_is_empty (jsonDumps (Value.list (v :: vs))) = false := by
  show strip_is_empty ("[" ++ jsonDumpsList (v :: vs) ++ "]") = false
  exact strip_is_empty_bracketed _ _ _ '[' rfl (by decide)

theorem strip_is_empty_jsonDumps_obj (kv : String × Value) (fs : List (String × Value)) :
    strip_is_empty (jsonDumps (Value.obj (kv :: fs))) = false := by
  show strip_is_empty ("\x7b" ++ jsonDumpsObj (kv :: fs) ++ "\x7d") = false
  exact strip_is_empty_bracketed _ _ _ '\x7b' rfl (by decide)

theorem sanitizeValue_str (s : String) :
    sanitizeValue (Value.str s) = if strip_is_empty s then Value.null else Value.str s := rfl

/-- C4 as a plain lemma usable by other proofs: the per-value sanitizer
is idempotent. -/
theorem sanitizeValue_idem (v : Value) : sanitizeValue (sanitizeValue v) = sanitizeValue v := by
  match v with
  | Value.null => rfl
  | Value.int n => rfl
  | Value.float q => rfl
  | Value.bool b =>
      cases b <;> rfl
  | Value.str s =>
      rw [sanitizeValue_str]
      by_cases h : strip_is_empty s
      · simp [h]
        rfl
      · simp [h, sanitizeValue_str]
  | Value.list [] => rfl
  | Value.obj [] => rfl
  | Value.list (v :: vs) =>
      show sanitizeValue (Value.str (jsonDumps (Value.list (v :: vs)))) = _
      rw [sanitizeValue_str, strip_is_empty_jsonDumps_list]
      rfl
  | Value.obj (kv :: fs) =>
      show sanitizeValue (Value.str (jsonDumps (Value.obj (kv :: fs)))) = _
      rw [sanitizeValue_str, strip_is_empty_jsonDumps_obj]
      rfl

-- ------------------------------------------------------------------
-- C3 and C4
-- ------------------------------------------------------------------

/-- C3: the sanitizer maps every input value by first-match-wins in the
source's order: null → null; empty list/object → null; non-empty
list/object → its JSON-encoded string; boolean → the string
"true"/"false"; a string that is empty or whitespace-only → null; every
other value (integers, floats, non-blank strings) passes through
unchanged. -/
theorem c3_sanitizer_order :
    sanitizeValue Value.null = Value.null ∧
    sanitizeValue (Value.list []) = Value.null ∧
    sanitizeValue (Value.obj []) = Value.null ∧
    (∀ v vs, sanitizeValue (Value.list (v :: vs)) = Value.str (jsonDumps (Value.list (v :: vs)))) ∧
    (∀ kv fs, sanitizeValue (Value.obj (kv :: fs)) = Value.str (jsonDumps (Value.obj (kv :: fs)))) ∧
    (∀ b, sanitizeValue (Value.bool b) = Value.str (if b then "true" else "false")) ∧
    (∀ s, strip_is_empty s = true → sanitizeValue (Value.str s) = Value.null) ∧
    (∀ s, strip_is_empty s = false → sanitizeValue (Value.str s) = Value.str s) ∧
    (∀ n, sanitizeValue (Value.int n) = Value.int n) ∧
    (∀ q, sanitizeValue (Value.float q) = Value.float q) := by
  refine ⟨rfl, rfl, rfl, fun v vs => rfl, fun kv fs => rfl, fun b => rfl, ?_, ?_, fun n => rfl,
    fun q => rfl⟩
  · intro s h
    rw [sanitizeValue_str, h]
    rfl
  · intro s h
    rw [sanitizeValue_str, h]
    rfl

/-- Witness for C3: the blank-string and non-blank-string rules at
concrete inputs (empty string, whitespace-only string, and a non-blank
string). -/
theorem c3_sanitizer_order_witness :
    sanitizeValue (Value.str "") = Value.null ∧
    sanitizeValue (Value.str "  ") = Value.null ∧
    sanitizeValue (Value.str "ok") = Value.str "ok" :=
  ⟨c3_sanitizer_order.2.2.2.2.2.2.1 "" (by decide),
   c3_sanitizer_order.2.2.2.2.2.2.1 "  " (by decide),
   c3_sanitizer_order.2.2.2.2.2.2.2.1 "ok" (by decide)⟩

/-- C4: the per-value sanitization is idempotent on the whole input
domain (null, booleans, integers, floats, strings, lists, objects):
applying it twice yields the same result as applying it once. -/
theorem c4_sanitizer_idempotent (v : Value) :
    sanitizeValue (sanitizeValue v) = sanitizeValue v :=
  sanitizeValue_idem v

-- ------------------------------------------------------------------
-- C6: schema bootstrap
-- ------------------------------------------------------------------

/-- The sample record of the C6 end-to-end scenario. -/
def sampleC6 : Record :=
  [("id", Value.int 5), ("active", Value.bool false), ("tags", Value.list [])]

/-- A bootstrap-mode environment for the C6 scenario: the destination
table is absent and the source offers `sampleC6` as its one sample. -/
def envC6 : SyncEnv :=
  { batchLimit := 1000, bufferMinutes := 2, lookbackDays := -1, now := 0,
    deleteSynced := false, odooModel := "sale.order", tableId := "proj.dataset.tbl",
    tableExists := false, sampleRecords := [sampleC6], existing0 := ∅,
    fetchPage := fun _ _ _ => [], insertResult := fun _ => Except.ok [],
    deleteOk := fun _ => true }

/-- C6: when the destination table does not exist the engine infers
per-field types by the rule null/boolean/list/object/other → STRING,
integer → INTEGER, float → FLOAT64; it emits the CREATE TABLE text for
the one sample record and terminates the run with no page fetched, no
insert attempted, and `total_inserted = 0`.  For the sample
`[("id", 5), ("active", false), ("tags", [])]` the emitted DDL contains
`id INTEGER`, `active STRING` and `tags STRING`. -/
theorem c6_bootstrap_schema :
    (∀ n, python_type_to_bq (Value.int n) = "INTEGER") ∧
    (∀ q, python_type_to_bq (Value.float q) = "FLOAT64") ∧
    (python_type_to_bq Value.null = "STRING") ∧
    (∀ b, python_type_to_bq (Value.bool b) = "STRING") ∧
    (∀ vs, python_type_to_bq (Value.list vs) = "STRING") ∧
    (∀ fs, python_type_to_bq (Value.obj fs) = "STRING") ∧
    (∀ s, python_type_to_bq (Value.str s) = "STRING") ∧
    (∀ (env : SyncEnv) (r : Record) (rest : List Record),
      env.tableExists = false → env.sampleRecords = r :: rest →
        (run_sync env).total_inserted = 0 ∧
        (run_sync env).insertCalls = [] ∧
        (run_sync env).fetchCalls = 0 ∧
        (run_sync env).ddl = generate_create_table_sql env.tableId r) ∧
    (generate_create_table_sql "proj.dataset.tbl" sampleC6
      = some "CREATE TABLE `proj.dataset.tbl` (\n  id INTEGER,\n  active STRING,\n  tags STRING\n);") ∧
    ("id INTEGER".data <:+:
      "CREATE TABLE `proj.dataset.tbl` (\n  id INTEGER,\n  active STRING,\n  tags STRING\n);".data) ∧
    ("active STRING".data <:+:
      "CREATE TABLE `proj.dataset.tbl` (\n  id INTEGER,\n  active STRING,\n  tags STRING\n);".data) ∧
    ("tags STRING".data <:+:
      "CREATE TABLE `proj.dataset.tbl` (\n  id INTEGER,\n  active STRING,\n  tags STRING\n);".data) := by
  refine ⟨fun n => rfl, fun q => rfl, rfl, fun b => rfl, fun vs => rfl, fun fs => rfl,
    fun s => rfl, ?_, by rfl, by decide, by decide, by decide⟩
  intro env r rest htab hs
  have : run_sync env = { initState ∅ with ddl := generate_create_table_sql env.tableId r } := by
    unfold run_sync
    rw [htab]
    simp [hs]
  rw [this]
  exact ⟨rfl, rfl, rfl, rfl⟩

/-- Witness for C6: in the concrete bootstrap environment `envC6` the
run performs no fetch and no insert, reports zero inserted, and emits
exactly the generated DDL for the sample record. -/
theorem c6_bootstrap_schema_witness :
    (run_sync envC6).total_inserted = 0 ∧
    (run_sync envC6).insertCalls = [] ∧
    (run_sync envC6).fetchCalls = 0 ∧
    (run_sync envC6).ddl = generate_create_table_sql "proj.dataset.tbl" sampleC6 :=
  c6_bootstrap_schema.2.2.2.2.2.2.2.1 envC6 sampleC6 [] rfl rfl

-- ------------------------------------------------------------------
-- Field bookkeeping lemmas for the loop body
-- ------------------------------------------------------------------

@[simp] theorem maybe_delete_existing (env : SyncEnv) (off : Nat) (ids : List Int)
    (st : SyncState) : (maybe_delete env off ids st).existing = st.existing := by
  simp only [maybe_delete]
  split <;> rfl

@[simp] theorem maybe_delete_total_fetched (env : SyncEnv) (off : Nat) (ids : List Int)
    (st : SyncState) : (maybe_delete env off ids st).total_fetched = st.total_fetched := by
  simp only [maybe_delete]
  split <;> rfl

@[simp] theorem maybe_delete_total_inserted (env : SyncEnv) (off : Nat) (ids : List Int)
    (st : SyncState) : (maybe_delete env off ids st).total_inserted = st.total_inserted := by
  simp only [maybe_delete]
  split <;> rfl

@[simp] theorem maybe_delete_total_skipped (env : SyncEnv) (off : Nat) (ids : List Int)
    (st : SyncState) : (maybe_delete env off ids st).total_skipped = st.total_skipped := by
  simp only [maybe_delete]
  split <;> rfl

@[simp] theorem maybe_delete_total_failed (env : SyncEnv) (off : Nat) (ids : List Int)
    (st : SyncState) : (maybe_delete env off ids st).total_failed = st.total_failed := by
  simp only [maybe_delete]
  split <;> rfl

@[simp] theorem maybe_delete_lostOnThrow (env : SyncEnv) (off : Nat) (ids : List Int)
    (st : SyncState) : (maybe_delete env off ids st).lostOnThrow = st.lostOnThrow := by
  simp only [maybe_delete]
  split <;> rfl

@[simp] theorem maybe_delete_fetchCalls (env : SyncEnv) (off : Nat) (ids : List Int)
    (st : SyncState) : (maybe_delete env off ids st).fetchCalls = st.fetchCalls := by
  simp only [maybe_delete]
  split <;> rfl

@[simp] theorem maybe_delete_insertCalls (env : SyncEnv) (off : Nat) (ids : List Int)
    (st : SyncState) : (maybe_delete env off ids st).insertCalls = st.insertCalls := by
  simp only [maybe_delete]
  split <;> rfl

@[simp] theorem maybe_delete_checkpointWrites (env : SyncEnv) (off : Nat) (ids : List Int)
    (st : SyncState) : (maybe_delete env off ids st).checkpointWrites = st.checkpointWrites := by
  simp only [maybe_delete]
  split <;> rfl

@[simp] theorem maybe_delete_deleteCalls (env : SyncEnv) (off : Nat) (ids : List Int)
    (st : SyncState) : (maybe_delete env off ids st).deleteCalls = st.deleteCalls ++ [ids] := by
  simp only [maybe_delete]
  split <;> rfl

@[simp] theorem reconcile_full_success_existing (env : SyncEnv) (off : Nat)
    (newRecords : List Record) (st : SyncState) :
    (reconcile_full_success env off newRecords st).existing =
      newRecords.foldl (fun s r => insert (recId r) s) st.existing := by
  simp only [reconcile_full_success]
  split <;> simp

@[simp] theorem reconcile_full_success_total_fetched (env : SyncEnv) (off : Nat)
    (newRecords : List Record) (st : SyncState) :
    (reconcile_full_success env off newRecords st).total_fetched = st.total_fetched := by
  simp only [reconcile_full_success]
  split <;> simp

@[simp] theorem reconcile_full_success_total_skipped (env : SyncEnv) (off : Nat)
    (newRecords : List Record) (st : SyncState) :
    (reconcile_full_success env off newRecords st).total_skipped = st.total_skipped := by
  simp only [reconcile_full_success]
  split <;> simp

@[simp] theorem reconcile_full_success_total_failed (env : SyncEnv) (off : Nat)
    (newRecords : List Record) (st : SyncState) :
    (reconcile_full_success env off newRecords st).total_failed = st.total_failed := by
  simp only [reconcile_full_success]
  split <;> simp

@[simp] theorem reconcile_full_success_total_inserted (env : SyncEnv) (off : Nat)
    (newRecords : List Record) (st : SyncState) :
    (reconcile_full_success env off newRecords st).total_inserted =
      st.total_inserted + (newRecords.length : Int) := by
  simp only [reconcile_full_success]
  split <;> simp

@[simp] theorem reconcile_full_success_lostOnThrow (env : SyncEnv) (off : Nat)
    (newRecords : List Record) (st : SyncState) :
    (reconcile_full_success env off newRecords st).lostOnThrow = st.lostOnThrow := by
  simp only [reconcile_full_success]
  split <;> simp

@[simp] theorem reconcile_full_success_fetchCalls (env : SyncEnv) (off : Nat)
    (newRecords : List Record) (st : SyncState) :
    (reconcile_full_success env off newRecords st).fetchCalls = st.fetchCalls := by
  simp only [reconcile_full_success]
  split <;> simp

@[simp] theorem reconcile_full_success_insertCalls (env : SyncEnv) (off : Nat)
    (newRecords : List Record) (st : SyncState) :
    (reconcile_full_success env off newRecords st).insertCalls = st.insertCalls := by
  simp only [reconcile_full_success]
  split <;> simp

@[simp] theorem reconcile_full_success_checkpointWrites (env : SyncEnv) (off : Nat)
    (newRecords : List Record) (st : SyncState) :
    (reconcile_full_success env off newRecords st).checkpointWrites = st.checkpointWrites := by
  simp only [reconcile_full_success]
  split <;> simp

@[simp] theorem reconcile_errors_existing (env : SyncEnv) (off : Nat)
    (newRecords : List Record) (errors : List Nat) (st : SyncState) :
    (reconcile_errors env off newRecords errors st).existing =
      ((newRecords.enum.filter (fun p => p.1 ∉ errors.toFinset)).map Prod.snd).foldl
        (fun s r => insert (recId r) s) st.existing := by
  simp only [reconcile_errors]
  split <;> simp

@[simp] theorem reconcile_errors_total_fetched (env : SyncEnv) (off : Nat)
    (newRecords : List Record) (errors : List Nat) (st : SyncState) :
    (reconcile_errors env off newRecords errors st).total_fetched = st.total_fetched := by
  simp only [reconcile_errors]
  split <;> simp

@[simp] theorem reconcile_errors_total_skipped (env : SyncEnv) (off : Nat)
    (newRecords : List Record) (errors : List Nat) (st : SyncState) :
    (reconcile_errors env off newRecords errors st).total_skipped = st.total_skipped := by
  simp only [reconcile_errors]
  split <;> simp

@[simp] theorem reconcile_errors_total_failed (env : SyncEnv) (off : Nat)
    (newRecords : List Record) (errors : List Nat) (st : SyncState) :
    (reconcile_errors env off newRecords errors st).total_failed =
      st.total_failed + (errors.toFinset.card : Int) := by
  simp only [reconcile_errors]
  split <;> simp

@[simp] theorem reconcile_errors_total_inserted (env : SyncEnv) (off : Nat)
    (newRecords : List Record) (errors : List Nat) (st : SyncState) :
    (reconcile_errors env off newRecords errors st).total_inserted =
      st.total_inserted + ((newRecords.length : Int) - (errors.toFinset.card : Int)) := by
  simp only [reconcile_errors]
  split <;> simp

@[simp] theorem reconcile_errors_lostOnThrow (env : SyncEnv) (off : Nat)
    (newRecords : List Record) (errors : List Nat) (st : SyncState) :
    (reconcile_errors env off newRecords errors st).lostOnThrow = st.lostOnThrow := by
  simp only [reconcile_errors]
  split <;> simp

@[simp] theorem reconcile_errors_fetchCalls (env : SyncEnv) (off : Nat)
    (newRecords : List Record) (errors : List Nat) (st : SyncState) :
    (reconcile_errors env off newRecords errors st).fetchCalls = st.fetchCalls := by
  simp only [reconcile_errors]
  split <;> simp

@[simp] theorem reconcile_errors_insertCalls (env : SyncEnv) (off : Nat)
    (newRecords : List Record) (errors : List Nat) (st : SyncState) :
    (reconcile_errors env off newRecords errors st).insertCalls = st.insertCalls := by
  simp only [reconcile_errors]
  split <;> simp

@[simp] theorem reconcile_errors_checkpointWrites (env : SyncEnv) (off : Nat)
    (newRecords : List Record) (errors : List Nat) (st : SyncState) :
    (reconcile_errors env off newRecords errors st).checkpointWrites = st.checkpointWrites := by
  simp only [reconcile_errors]
  split <;> simp

theorem process_batch_fetchCalls (env : SyncEnv) (off : Nat) (b : List Record)
    (st : SyncState) : (process_batch env off b st).fetchCalls = st.fetchCalls := by
  simp only [process_batch]
  split
  · rfl
  · split <;> (try split) <;> simp

theorem process_batch_checkpointWrites (env : SyncEnv) (off : Nat) (b : List Record)
    (st : SyncState) : (process_batch env off b st).checkpointWrites = st.checkpointWrites := by
  simp only [process_batch]
  split
  · rfl
  · split <;> (try split) <;> simp

-- ------------------------------------------------------------------
-- Generic facts about the draining loop
-- ------------------------------------------------------------------

theorem foldl_insert_eq_union (l : List Record) (s : Finset Int) :
    l.foldl (fun t r => insert (recId r) t) s = s ∪ (l.map recId).toFinset := by
  induction l generalizing s with
  | nil => simp
  | cons a l ih =>
      simp [List.foldl_cons, ih, Finset.insert_union, Finset.union_insert]

theorem process_batch_existing_mono (env : SyncEnv) (off : Nat) (b : List Record)
    (st : SyncState) : st.existing ⊆ (process_batch env off b st).existing := by
  simp only [process_batch]
  split
  · exact fun x hx => hx
  · split
    · exact fun x hx => hx
    · split <;> simp [foldl_insert_eq_union, Finset.subset_union_left]

/-- Every property `P` of the run state that survives the fetch-counter
bump and one `process_batch` step holds after the whole draining loop. -/
theorem sync_loop_preserves (env : SyncEnv) (df : Option (Int × Int)) (P : SyncState → Prop)
    (hf : ∀ st : SyncState, P st → P { st with fetchCalls := st.fetchCalls + 1 })
    (hp : ∀ (off : Nat) (b : List Record) (st : SyncState), P st → P (process_batch env off b st)) :
    ∀ (n k : Nat) (st : SyncState), 100 - k ≤ n → P st → P (sync_loop env df k st) := by
  intro n
  induction n with
  | zero =>
      intro k st hn hP
      unfold sync_loop
      dsimp only
      split
      · exact hf _ hP
      · split
        · exact hp _ _ _ (hf _ hP)
        · rename_i hcap
          exfalso
          have h1 : env.batchLimit * 100 ≤ env.batchLimit * k :=
            Nat.mul_le_mul_left _ (by omega)
          have h2 : env.batchLimit * k = k * env.batchLimit := Nat.mul_comm _ _
          omega
  | succ n ih =>
      intro k st hn hP
      unfold sync_loop
      dsimp only
      split
      · exact hf _ hP
      · split
        · exact hp _ _ _ (hf _ hP)
        · rename_i hcap
          have hk : k + 1 < 100 := by
            by_contra hk2
            push_neg at hk2
            have h1 : env.batchLimit * 100 ≤ env.batchLimit * (k + 1) :=
              Nat.mul_le_mul_left _ hk2
            have h2 : env.batchLimit * (k + 1) = k * env.batchLimit + env.batchLimit := by ring
            omega
          exact ih (k + 1) _ (by omega) (hp _ _ _ (hf _ hP))

theorem sync_loop_fetchCalls_le (env : SyncEnv) (df : Option (Int × Int)) :
    ∀ (n k : Nat) (st : SyncState), 100 - k ≤ n → k < 100 →
      (sync_loop env df k st).fetchCalls ≤ st.fetchCalls + (100 - k) := by
  intro n
  induction n with
  | zero =>
      intro k st hn hk
      omega
  | succ n ih =>
      intro k st hn hk
      unfold sync_loop
      dsimp only
      split
      · simp
        omega
      · split
        · rw [process_batch_fetchCalls]
          simp
          omega
        · rename_i hcap
          have hk1 : k + 1 < 100 := by
            by_contra hk2
            push_neg at hk2
            have h1 : env.batchLimit * 100 ≤ env.batchLimit * (k + 1) :=
              Nat.mul_le_mul_left _ hk2
            have h2 : env.batchLimit * (k + 1) = k * env.batchLimit + env.batchLimit := by ring
            omega
          have := ih (k + 1) (process_batch env (k * env.batchLimit)
            (fetch_records_batch env (k * env.batchLimit) df)
            { st with fetchCalls := st.fetchCalls + 1 }) (by omega) hk1
          rw [process_batch_fetchCalls] at this
          simp at this
          omega

-- ------------------------------------------------------------------
-- C7: safety cap on fetch calls
-- ------------------------------------------------------------------

/-- C7: in a single run the pagination loop issues at most 100
page-fetch calls, however much source data remains: it stops on an
empty page or once the advanced offset reaches `BATCH_LIMIT * 100`,
whichever comes first. -/
theorem c7_safety_cap (env : SyncEnv) : (run_sync env).fetchCalls ≤ 100 := by
  unfold run_sync
  split
  · dsimp only
    refine le_trans (sync_loop_fetchCalls_le env _ 100 0 _ (by omega) (by omega)) ?_
    simp [initState]
  · match env.sampleRecords with
    | [] => simp [initState]
    | r :: _ => simp [initState]

-- ------------------------------------------------------------------
-- C9: ExistingIdSet grows monotonically
-- ------------------------------------------------------------------

/-- C9: the ExistingIdSet grows monotonically through a run: each batch
step and the whole draining loop only ever add ids, and the run starts
from exactly the set of ids rebuilt from the destination
(`get_existing_ids`), which it therefore also contains at the end. -/
theorem c9_existing_monotone :
    (∀ (env : SyncEnv) (off : Nat) (b : List Record) (st : SyncState),
      st.existing ⊆ (process_batch env off b st).existing) ∧
    (∀ (env : SyncEnv) (df : Option (Int × Int)) (k : Nat) (st : SyncState),
      st.existing ⊆ (sync_loop env df k st).existing) ∧
    (∀ env : SyncEnv, env.tableExists = true →
      get_existing_ids env ⊆ (run_sync env).existing) := by
  have hloop : ∀ (env : SyncEnv) (df : Option (Int × Int)) (k : Nat) (st : SyncState),
      st.existing ⊆ (sync_loop env df k st).existing := by
    intro env df k st
    exact sync_loop_preserves env df (fun t => st.existing ⊆ t.existing)
      (fun t h => h) (fun off b t h => h.trans (process_batch_existing_mono env off b t))
      100 k st (by omega) (fun x hx => hx)
  refine ⟨fun env off b st => process_batch_existing_mono env off b st, hloop, ?_⟩
  intro env htab
  unfold run_sync
  rw [htab]
  simp only [if_true]
  exact hloop env _ 0 (initState (get_existing_ids env))

/-- A concrete running environment: destination table present, one id
already at the destination, source exhausted immediately. -/
def envA : SyncEnv :=
  { batchLimit := 1000, bufferMinutes := 2, lookbackDays := -1, now := 0,
    deleteSynced := false, odooModel := "sale.order", tableId := "proj.dataset.tbl",
    tableExists := true, sampleRecords := [], existing0 := {7},
    fetchPage := fun _ _ _ => [], insertResult := fun _ => Except.ok [],
    deleteOk := fun _ => true }

/-- Witness for C9: in the concrete environment `envA`, the set of ids
rebuilt from the destination is contained in the final ExistingIdSet. -/
theorem c9_existing_monotone_witness :
    get_existing_ids envA ⊆ (run_sync envA).existing :=
  c9_existing_monotone.2.2 envA rfl

-- ------------------------------------------------------------------
-- C1: checkpoint writes
-- ------------------------------------------------------------------

/-- C1 (counterexample to the claim as stated): in the concrete
environment `envA` the draining loop completes (the very first page is
empty), yet the number of checkpoint writes performed by the run is not
one — `update_last_synced_time` is never reached from `run_sync`. -/
theorem c1_checkpoint_counterexample :
    (run_sync envA).checkpointWrites.length ≠ 1 := by
  have htab : envA.tableExists = true := rfl
  have h : run_sync envA =
      { initState (get_existing_ids envA) with fetchCalls := 1 } := by
    unfold run_sync
    rw [if_pos htab]
    dsimp only
    unfold sync_loop
    rfl
  rw [h]
  simp [initState]

/-- C1 (amended): after the draining loop completes, the engine writes
the checkpoint zero times — `run_sync` never invokes
`update_last_synced_time`, so the checkpoint-write trace of every run
is empty, regardless of mode, window, or failures. -/
theorem c1_no_checkpoint_write (env : SyncEnv) :
    (run_sync env).checkpointWrites = [] := by
  unfold run_sync
  split
  · dsimp only
    exact sync_loop_preserves env _ (fun t => t.checkpointWrites = [])
      (fun t h => h)
      (fun off b t h => by
        show (process_batch env off b t).checkpointWrites = []
        rw [process_batch_checkpointWrites]
        exact h)
      100 0 _ (by omega) rfl
  · match env.sampleRecords with
    | [] => rfl
    | r :: _ => rfl

-- ------------------------------------------------------------------
-- C10: counter accounting identity
-- ------------------------------------------------------------------

theorem process_batch_acct (env : SyncEnv) (off : Nat) (b : List Record) (st : SyncState)
    (h : st.total_fetched =
      st.total_inserted + st.total_failed + st.total_skipped + st.lostOnThrow) :
    (process_batch env off b st).total_fetched =
      (process_batch env off b st).total_inserted + (process_batch env off b st).total_failed +
        (process_batch env off b st).total_skipped + (process_batch env off b st).lostOnThrow := by
  simp only [process_batch]
  split
  · rename_i hempty
    simp only [List.isEmpty_iff] at hempty
    rw [hempty]
    simp
    omega
  · split
    · simp
      omega
    · split
      · simp
        omega
      · simp
        omega

theorem process_batch_lostOnThrow_of_ok (env : SyncEnv) (off : Nat) (b : List Record)
    (st : SyncState) (hok : env.insertResult off ≠ Except.error ()) :
    (process_batch env off b st).lostOnThrow = st.lostOnThrow := by
  simp only [process_batch]
  split
  · rfl
  · rcases hres : env.insertResult off with u | errors
    · exact absurd hres hok
    · simp [hres]
      split <;> simp

/-- C10: the counters satisfy
`total_fetched = total_inserted + total_failed + total_skipped + lost`,
where `lost` accumulates exactly the new records of pages whose
bulk-insert call threw; hence for every run in which no bulk-insert
call throws, `total_fetched = total_inserted + total_failed +
total_skipped` holds in the final summary. -/
theorem c10_accounting (env : SyncEnv) :
    ((run_sync env).total_fetched =
      (run_sync env).total_inserted + (run_sync env).total_failed +
        (run_sync env).total_skipped + (run_sync env).lostOnThrow) ∧
    ((∀ off : Nat, env.insertResult off ≠ Except.error ()) →
      (run_sync env).total_fetched =
        (run_sync env).total_inserted + (run_sync env).total_failed +
          (run_sync env).total_skipped) := by
  constructor
  · unfold run_sync
    split
    · dsimp only
      exact sync_loop_preserves env _
        (fun t => t.total_fetched =
          t.total_inserted + t.total_failed + t.total_skipped + t.lostOnThrow)
        (fun t h => h) (fun off b t h => process_batch_acct env off b t h)
        100 0 _ (by omega) (by simp [initState])
    · match env.sampleRecords with
      | [] => simp [initState]
      | r :: _ => simp [initState]
  · intro hok
    have hlost : (run_sync env).lostOnThrow = 0 := by
      unfold run_sync
      split
      · dsimp only
        exact sync_loop_preserves env _ (fun t => t.lostOnThrow = 0)
          (fun t h => h)
          (fun off b t h => by
            show (process_batch env off b t).lostOnThrow = 0
            rw [process_batch_lostOnThrow_of_ok env off b t (hok off)]
            exact h)
          100 0 _ (by omega) (by simp [initState])
      · match env.sampleRecords with
        | [] => simp [initState]
        | r :: _ => simp [initState]
    have hacct : (run_sync env).total_fetched =
        (run_sync env).total_inserted + (run_sync env).total_failed +
          (run_sync env).total_skipped + (run_sync env).lostOnThrow := by
      unfold run_sync
      split
      · dsimp only
        exact sync_loop_preserves env _
          (fun t => t.total_fetched =
            t.total_inserted + t.total_failed + t.total_skipped + t.lostOnThrow)
          (fun t h => h) (fun off b t h => process_batch_acct env off b t h)
          100 0 _ (by omega) (by simp [initState])
      · match env.sampleRecords with
        | [] => simp [initState]
        | r :: _ => simp [initState]
    omega

/-- Witness for C10: in the concrete environment `envA` no insert call
throws, and the accounting identity holds for the run's summary. -/
theorem c10_accounting_witness :
    (run_sync envA).total_fetched =
      (run_sync envA).total_inserted + (run_sync envA).total_failed +
        (run_sync envA).total_skipped :=
  (c10_accounting envA).2 (by intro off h; simp [envA] at h)

-- ------------------------------------------------------------------
-- C5: duplicate suppression
-- ------------------------------------------------------------------

theorem filter_length_split (l : List Record) (E : Finset Int) :
    (l.filter (fun r => recId r ∉ E)).length + (l.filter (fun r => recId r ∈ E)).length
      = l.length := by
  induction l with
  | nil => rfl
  | cons a l ih =>
      simp only [List.filter_cons]
      by_cases h : recId a ∈ E
      · rw [if_neg (by simpa using h), if_pos (by simpa using h)]
        simp only [List.length_cons]
        omega
      · rw [if_pos (by simpa using h), if_neg (by simpa using h)]
        simp only [List.length_cons]
        omega

theorem process_batch_total_skipped (env : SyncEnv) (off : Nat) (b : List Record)
    (st : SyncState) :
    (process_batch env off b st).total_skipped =
      st.total_skipped + ((b.length : Int) -
        ((b.filter (fun r => recId r ∉ st.existing)).length : Int)) := by
  simp only [process_batch]
  split
  · rfl
  · split <;> (try split) <;> simp

theorem process_batch_insertCalls (env : SyncEnv) (off : Nat) (b : List Record)
    (st : SyncState) :
    (process_batch env off b st).insertCalls = st.insertCalls ++
      (if (b.filter (fun r => recId r ∉ st.existing)).isEmpty then []
       else [((b.filter (fun r => recId r ∉ st.existing)).map sanitize_record_for_bq,
              ((b.filter (fun r => recId r ∉ st.existing)).map sanitize_record_for_bq).map
                (fun r => env.odooModel ++ "_" ++ toString (recId r)))]) := by
  simp only [process_batch]
  split
  · simp
  · split <;> (try split) <;> simp

theorem lookupField_sanitize (r : Record) (k : String) :
    lookupField (sanitize_record_for_bq r) k = (lookupField r k).map sanitizeValue := by
  induction r with
  | nil => rfl
  | cons kv r ih =>
      by_cases h : kv.1 == k <;>
        simp [lookupField, sanitize_record_for_bq, List.find?_cons, h] <;>
        simpa [lookupField, sanitize_record_for_bq] using ih

theorem recId_sanitize (r : Record) : recId (sanitize_record_for_bq r) = recId r := by
  unfold recId
  rw [lookupField_sanitize]
  cases hl : lookupField r "id" with
  | none => rfl
  | some v =>
      cases v with
      | null => rfl
      | bool b => rfl
      | int n => rfl
      | float q => rfl
      | str s =>
          by_cases hs : strip_is_empty s <;> simp [sanitizeValue_str, hs]
      | list vs => cases vs <;> rfl
      | obj fs => cases fs <;> rfl

/-- C5: for every fetched page, the records whose id is already in the
ExistingIdSet are counted in the skipped counter — exactly as many of
them as the page contains — and are excluded from the bulk-insert call:
no payload newly passed to the destination during this page contains
the sanitized form of such a record. -/
theorem c5_duplicate_suppression (env : SyncEnv) (off : Nat) (batch : List Record)
    (st : SyncState) :
    ((process_batch env off batch st).total_skipped =
      st.total_skipped + ((batch.filter (fun r => recId r ∈ st.existing)).length : Int)) ∧
    (∀ r ∈ batch, recId r ∈ st.existing →
      ∀ pl ids, (pl, ids) ∈ (process_batch env off batch st).insertCalls →
        (pl, ids) ∉ st.insertCalls → sanitize_record_for_bq r ∉ pl) := by
  constructor
  · rw [process_batch_total_skipped]
    have h := filter_length_split batch st.existing
    omega
  · intro r hr hdup pl ids hmem hnot
    rw [process_batch_insertCalls] at hmem
    split at hmem
    · simp at hmem
      exact absurd hmem hnot
    · rcases List.mem_append.mp hmem with hold | hnew
      · exact absurd hold hnot
      · simp at hnew
        obtain ⟨hpl, hids⟩ := hnew
        subst hpl
        intro hcontra
        rcases List.mem_map.mp hcontra with ⟨r2, hr2, hsan⟩
        rcases List.mem_filter.mp hr2 with ⟨hr2b, hr2p⟩
        have hid : recId r2 = recId r := by
          rw [← recId_sanitize r2, hsan, recId_sanitize r]
        simp at hr2p
        rw [hid] at hr2p
        exact hr2p hdup

/-- A record with id 1, used in concrete scenarios. -/
def r1B : Record := [("id", Value.int 1)]

/-- A record with id 2, used in concrete scenarios. -/
def r2B : Record := [("id", Value.int 2)]

/-- A two-record page whose first record duplicates a destination id. -/
def batchB : List Record := [r1B, r2B]

/-- A running environment whose destination already holds id 1. -/
def envB : SyncEnv :=
  { batchLimit := 1000, bufferMinutes := 2, lookbackDays := -1, now := 0,
    deleteSynced := false, odooModel := "sale.order", tableId := "proj.dataset.tbl",
    tableExists := true, sampleRecords := [], existing0 := {1},
    fetchPage := fun _ _ _ => [], insertResult := fun _ => Except.ok [],
    deleteOk := fun _ => true }

/-- Witness for C5: on the concrete page `[id 1, id 2]` against an
ExistingIdSet `{1}`, the skip counter counts exactly the one duplicate,
and the duplicate's sanitized record is absent from the one payload the
page passes to the bulk insert. -/
theorem c5_duplicate_suppression_witness :
    ((process_batch envB 0 batchB (initState {1})).total_skipped =
      (initState ({1} : Finset Int)).total_skipped +
        ((batchB.filter (fun r => recId r ∈ (initState ({1} : Finset Int)).existing)).length : Int)) ∧
    sanitize_record_for_bq r1B ∉ [sanitize_record_for_bq r2B] := by
  have h := c5_duplicate_suppression envB 0 batchB (initState {1})
  refine ⟨h.1, ?_⟩
  have hcall : (process_batch envB 0 batchB (initState {1})).insertCalls =
      [([sanitize_record_for_bq r2B], ["sale.order_2"])] := by rfl
  exact h.2 r1B (by simp [batchB]) (by decide)
    [sanitize_record_for_bq r2B] ["sale.order_2"]
    (by rw [hcall]; exact List.mem_singleton.mpr rfl)
    (by simp [initState])

-- ------------------------------------------------------------------
-- C8: a thrown bulk insert abandons the page
-- ------------------------------------------------------------------

theorem process_batch_throw (env : SyncEnv) (off : Nat) (b : List Record) (st : SyncState)
    (hthrow : env.insertResult off = Except.error ()) :
    (process_batch env off b st).existing = st.existing ∧
    (process_batch env off b st).total_inserted = st.total_inserted ∧
    (process_batch env off b st).total_failed = st.total_failed ∧
    (process_batch env off b st).deleteCalls = st.deleteCalls ∧
    (process_batch env off b st).total_deleted = st.total_deleted := by
  simp only [process_batch]
  split
  · exact ⟨rfl, rfl, rfl, rfl, rfl⟩
  · rw [hthrow]
    exact ⟨rfl, rfl, rfl, rfl, rfl⟩

/-- C8: if the bulk-insert call for a page throws (rather than
returning per-row errors), the page is abandoned atomically — the
ExistingIdSet, the inserted/failed counters, the delete-call trace and
the deleted counter are all unchanged by the page — and the loop
proceeds to the next page at the advanced offset (when the safety cap
has not been reached). -/
theorem c8_throw_abandons_page (env : SyncEnv) (df : Option (Int × Int)) (k : Nat)
    (st : SyncState)
    (hthrow : env.insertResult (k * env.batchLimit) = Except.error ())
    (hne : fetch_records_batch env (k * env.batchLimit) df ≠ [])
    (hcap : ¬ (env.batchLimit * 100 ≤ k * env.batchLimit + env.batchLimit)) :
    (∀ (b : List Record) (t : SyncState),
      (process_batch env (k * env.batchLimit) b t).existing = t.existing ∧
      (process_batch env (k * env.batchLimit) b t).total_inserted = t.total_inserted ∧
      (process_batch env (k * env.batchLimit) b t).total_failed = t.total_failed ∧
      (process_batch env (k * env.batchLimit) b t).deleteCalls = t.deleteCalls ∧
      (process_batch env (k * env.batchLimit) b t).total_deleted = t.total_deleted) ∧
    sync_loop env df k st = sync_loop env df (k + 1)
      (process_batch env (k * env.batchLimit)
        (fetch_records_batch env (k * env.batchLimit) df)
        { st with fetchCalls := st.fetchCalls + 1 }) := by
  constructor
  · exact fun b t => process_batch_throw env (k * env.batchLimit) b t hthrow
  · conv_lhs => rw [sync_loop.eq_def]
    dsimp only
    rw [if_neg (by simpa [List.isEmpty_iff] using hne), dif_neg hcap]

/-- An environment whose bulk-insert call always throws and whose
source offers one record on the first page only. -/
def envT : SyncEnv :=
  { batchLimit := 1000, bufferMinutes := 2, lookbackDays := -1, now := 0,
    deleteSynced := true, odooModel := "sale.order", tableId := "proj.dataset.tbl",
    tableExists := true, sampleRecords := [], existing0 := ∅,
    fetchPage := fun off _ _ => if off = 0 then [r2B] else [],
    insertResult := fun _ => Except.error (),
    deleteOk := fun _ => true }

/-- Witness for C8: with the concrete throwing environment `envT`, the
first page leaves the ExistingIdSet and delete trace untouched and the
loop steps to the next page at the advanced offset. -/
theorem c8_throw_abandons_page_witness :
    ((process_batch envT (0 * envT.batchLimit) [r2B] (initState ∅)).existing
        = (initState (∅ : Finset Int)).existing ∧
      (process_batch envT (0 * envT.batchLimit) [r2B] (initState ∅)).deleteCalls
        = (initState (∅ : Finset Int)).deleteCalls) ∧
    sync_loop envT none 0 (initState ∅) = sync_loop envT none (0 + 1)
      (process_batch envT (0 * envT.batchLimit)
        (fetch_records_batch envT (0 * envT.batchLimit) none)
        { initState ∅ with fetchCalls := (initState (∅ : Finset Int)).fetchCalls + 1 }) := by
  have h := c8_throw_abandons_page envT none 0 (initState ∅) rfl
    (by simp [fetch_records_batch, envT]) (by simp [envT])
  exact ⟨⟨(h.1 [r2B] (initState ∅)).1, (h.1 [r2B] (initState ∅)).2.2.2.1⟩, h.2⟩

-- ------------------------------------------------------------------
-- C2: index machinery for partial-failure reconciliation
-- ------------------------------------------------------------------

theorem le_fst_of_mem_enumFrom {α : Type} :
    ∀ {l : List α} {n : Nat} {p : Nat × α}, p ∈ l.enumFrom n → n ≤ p.1 := by
  intro l
  induction l with
  | nil => intro n p h; simp at h
  | cons a l ih =>
      intro n p h
      rw [List.enumFrom_cons, List.mem_cons] at h
      rcases h with rfl | h
      · exact Nat.le_refl n
      · exact Nat.le_of_succ_le (ih h)

theorem sel_partition {α : Type} (l : List (Nat × α)) (F : Finset Nat) :
    (l.filter (fun p => p.1 ∉ F)).length + (l.filter (fun p => p.1 ∈ F)).length = l.length := by
  induction l with
  | nil => rfl
  | cons a l ih =>
      by_cases h : a.1 ∈ F
      · rw [List.filter_cons_of_neg (by simpa using h), List.filter_cons_of_pos (by simpa using h)]
        simp only [List.length_cons]
        omega
      · rw [List.filter_cons_of_pos (by simpa using h), List.filter_cons_of_neg (by simpa using h)]
        simp only [List.length_cons]
        omega

theorem mem_sel_not {α : Type} (l : List α) (n : Nat) (F : Finset Nat) (x : α) :
    x ∈ ((l.enumFrom n).filter (fun p => p.1 ∉ F)).map Prod.snd ↔
      ∃ i, ∃ hi : i < l.length, (n + i) ∉ F ∧ l.get ⟨i, hi⟩ = x := by
  induction l generalizing n with
  | nil => simp
  | cons a l ih =>
      rw [List.enumFrom_cons]
      by_cases hq : n ∈ F
      · rw [List.filter_cons_of_neg (by simpa using hq), ih]
        constructor
        · rintro ⟨i, hi, hni, hget⟩
          refine ⟨i + 1, by simpa using Nat.succ_lt_succ hi, ?_, by simpa using hget⟩
          have he : n + 1 + i = n + (i + 1) := by omega
          rw [← he]
          exact hni
        · rintro ⟨i, hi, hni, hget⟩
          cases i with
          | zero => exact absurd hq (by simpa using hni)
          | succ j =>
              refine ⟨j, by simpa using Nat.lt_of_succ_lt_succ hi, ?_, by simpa using hget⟩
              have he : n + (j + 1) = n + 1 + j := by omega
              rw [he] at hni
              exact hni
      · rw [List.filter_cons_of_pos (by simpa using hq), List.map_cons, List.mem_cons, ih]
        constructor
        · rintro (rfl | ⟨i, hi, hni, hget⟩)
          · exact ⟨0, by simp, by simpa using hq, rfl⟩
          · refine ⟨i + 1, by simpa using Nat.succ_lt_succ hi, ?_, by simpa using hget⟩
            have he : n + 1 + i = n + (i + 1) := by omega
            rw [← he]
            exact hni
        · rintro ⟨i, hi, hni, hget⟩
          cases i with
          | zero => exact Or.inl (show x = a from Eq.symm (by simpa using hget))
          | succ j =>
              refine Or.inr ⟨j, by simpa using Nat.lt_of_succ_lt_succ hi, ?_, by simpa using hget⟩
              have he : n + (j + 1) = n + 1 + j := by omega
              rw [he] at hni
              exact hni

theorem enumFrom_filter_mem_length {α : Type} (l : List α) :
    ∀ (F : Finset Nat) (n : Nat), (∀ i ∈ F, n ≤ i ∧ i < n + l.length) →
      ((l.enumFrom n).filter (fun p => p.1 ∈ F)).length = F.card := by
  induction l with
  | nil =>
      intro F n hF
      have hFe : F = ∅ := Finset.eq_empty_of_forall_not_mem (fun i hi => by
        have := hF i hi
        simp at this
        omega)
      subst hFe
      simp
  | cons a l ih =>
      intro F n hF
      rw [List.enumFrom_cons]
      by_cases hq : n ∈ F
      · rw [List.filter_cons_of_pos (by simpa using hq), List.length_cons]
        have hcongr : (l.enumFrom (n + 1)).filter (fun p => p.1 ∈ F)
            = (l.enumFrom (n + 1)).filter (fun p => p.1 ∈ F.erase n) := by
          apply List.filter_congr
          intro p hp
          have hle : n + 1 ≤ p.1 := le_fst_of_mem_enumFrom hp
          simp only [decide_eq_decide, Finset.mem_erase]
          constructor
          · intro hm
            exact ⟨by omega, hm⟩
          · intro hm
            exact hm.2
        rw [hcongr, ih (F.erase n) (n + 1) ?_]
        · have h1 := Finset.card_erase_of_mem hq
          have h2 : 0 < F.card := Finset.card_pos.mpr ⟨n, hq⟩
          omega
        · intro i hi
          rcases Finset.mem_erase.mp hi with ⟨hne, hiF⟩
          have := hF i hiF
          simp only [List.length_cons] at this
          omega
      · rw [List.filter_cons_of_neg (by simpa using hq)]
        apply ih F (n + 1)
        intro i hi
        have h1 := hF i hi
        have hne : i ≠ n := fun h => hq (h ▸ hi)
        simp only [List.length_cons] at h1
        omega

theorem process_batch_ok_errors (env : SyncEnv) (off : Nat) (batch : List Record)
    (st : SyncState) (errors : List Nat)
    (hfilter : batch.filter (fun r => recId r ∉ st.existing) = batch)
    (hb : batch ≠ [])
    (hres : env.insertResult off = Except.ok errors)
    (hne : errors ≠ []) :
    process_batch env off batch st = reconcile_errors env off batch errors
      { st with
        total_fetched := st.total_fetched + (batch.length : Int),
        total_skipped := st.total_skipped + ((batch.length : Int) - (batch.length : Int)),
        insertCalls := st.insertCalls ++
          [(batch.map sanitize_record_for_bq,
            (batch.map sanitize_record_for_bq).map
              (fun r => env.odooModel ++ "_" ++ toString (recId r)))] } := by
  simp only [process_batch, hfilter, hres]
  rw [if_neg (by simpa [List.isEmpty_iff] using hb),
    if_neg (by simpa [List.isEmpty_iff] using hne)]

theorem succ_spec (batch : List Record) (F : Finset Nat)
    (hF : ∀ i ∈ F, i < batch.length) :
    (((batch.enum.filter (fun p => p.1 ∉ F)).map Prod.snd).length = batch.length - F.card) ∧
    (∀ x, x ∈ (batch.enum.filter (fun p => p.1 ∉ F)).map Prod.snd ↔
      ∃ i, ∃ hi : i < batch.length, i ∉ F ∧ batch.get ⟨i, hi⟩ = x) ∧
    (List.Sublist ((batch.enum.filter (fun p => p.1 ∉ F)).map Prod.snd) batch) := by
  have henum : batch.enum = batch.enumFrom 0 := rfl
  refine ⟨?_, ?_, ?_⟩
  · rw [henum, List.length_map]
    have hpart := sel_partition (batch.enumFrom 0) F
    have hmem := enumFrom_filter_mem_length batch F 0
      (fun i hi => ⟨Nat.zero_le _, by simpa using hF i hi⟩)
    have hlen : (batch.enumFrom 0).length = batch.length := List.enumFrom_length
    omega
  · intro x
    rw [henum, mem_sel_not]
    constructor
    · rintro ⟨i, hi, hni, hget⟩
      exact ⟨i, hi, by simpa using hni, hget⟩
    · rintro ⟨i, hi, hni, hget⟩
      exact ⟨i, hi, by simpa using hni, hget⟩
  · have h1 : List.Sublist (batch.enum.filter (fun p => p.1 ∉ F)) batch.enum :=
      List.filter_sublist _
    have h2 := h1.map Prod.snd
    have h3 : (batch.enum).map Prod.snd = batch := by
      rw [henum]
      exact List.enumFrom_map_snd 0 batch
    rw [h3] at h2
    exact h2

@[simp] theorem reconcile_errors_deleteCalls (env : SyncEnv) (off : Nat)
    (newRecords : List Record) (errors : List Nat) (st : SyncState) :
    (reconcile_errors env off newRecords errors st).deleteCalls =
      st.deleteCalls ++
        (if env.deleteSynced ∧
            0 < ((newRecords.map sanitize_record_for_bq).length : Int)
              - (errors.toFinset.card : Int) then
          [((newRecords.enum.filter (fun p => p.1 ∉ errors.toFinset)).map Prod.snd).map recId]
        else []) := by
  simp only [reconcile_errors]
  split <;> simp

/-- C2: for a page of N all-new records where the bulk insert returns a
non-empty error list naming k distinct in-range failed indices, exactly
the N−k records at the non-failed indices have their ids added to the
ExistingIdSet (the failed-index ids are not added), the failed counter
grows by exactly k, the inserted counter by N−k, and — when deletion is
enabled — exactly the ids at the non-failed indices form the one id
list passed to the source delete call (none when every index failed,
and no delete call at all when deletion is disabled). -/
theorem c2_partial_failure (env : SyncEnv) (off : Nat) (batch : List Record)
    (st : SyncState) (errors : List Nat)
    (hnew : ∀ r ∈ batch, recId r ∉ st.existing)
    (hres : env.insertResult off = Except.ok errors)
    (hne : errors ≠ [])
    (hlt : ∀ i ∈ errors, i < batch.length)
    (hnd : (batch.map recId).Nodup) :
    ((process_batch env off batch st).total_failed
        = st.total_failed + (errors.toFinset.card : Int)) ∧
    ((process_batch env off batch st).total_inserted
        = st.total_inserted + ((batch.length : Int) - (errors.toFinset.card : Int))) ∧
    (∀ i, ∀ hi : i < batch.length, i ∉ errors.toFinset →
      recId (batch.get ⟨i, hi⟩) ∈ (process_batch env off batch st).existing) ∧
    (∀ i, ∀ hi : i < batch.length, i ∈ errors.toFinset →
      recId (batch.get ⟨i, hi⟩) ∉ (process_batch env off batch st).existing) ∧
    ((process_batch env off batch st).existing.card
        = st.existing.card + (batch.length - errors.toFinset.card)) ∧
    (env.deleteSynced = true → errors.toFinset.card < batch.length →
      ∃ ids : List Int,
        (process_batch env off batch st).deleteCalls = st.deleteCalls ++ [ids] ∧
        ids.length = batch.length - errors.toFinset.card ∧
        (∀ i, ∀ hi : i < batch.length,
          (i ∉ errors.toFinset ↔ recId (batch.get ⟨i, hi⟩) ∈ ids))) ∧
    (env.deleteSynced = true → errors.toFinset.card = batch.length →
      (process_batch env off batch st).deleteCalls = st.deleteCalls) ∧
    (env.deleteSynced = false →
      (process_batch env off batch st).deleteCalls = st.deleteCalls) := by
  have hfilter : batch.filter (fun r => recId r ∉ st.existing) = batch :=
    List.filter_eq_self.mpr (fun r hr => by simpa using hnew r hr)
  have hb : batch ≠ [] := by
    cases errors with
    | nil => exact absurd rfl hne
    | cons e es =>
        have he := hlt e (by simp)
        intro hbnil
        rw [hbnil] at he
        simp at he
  have hFlt : ∀ i ∈ errors.toFinset, i < batch.length :=
    fun i hi => hlt i (List.mem_toFinset.mp hi)
  obtain ⟨hlen, hmem, hsub⟩ := succ_spec batch errors.toFinset hFlt
  have hPB := process_batch_ok_errors env off batch st errors hfilter hb hres hne
  have hids_nodup :
      (((batch.enum.filter (fun p => p.1 ∉ errors.toFinset)).map Prod.snd).map recId).Nodup :=
    hnd.sublist (hsub.map recId)
  have hmem_ids : ∀ x : Int,
      x ∈ ((batch.enum.filter (fun p => p.1 ∉ errors.toFinset)).map Prod.snd).map recId ↔
        ∃ i, ∃ hi : i < batch.length, i ∉ errors.toFinset ∧ recId (batch.get ⟨i, hi⟩) = x := by
    intro x
    rw [List.mem_map]
    constructor
    · rintro ⟨r, hr, rfl⟩
      rcases (hmem r).mp hr with ⟨i, hi, hni, hget⟩
      exact ⟨i, hi, hni, by rw [hget]⟩
    · rintro ⟨i, hi, hni, hx⟩
      exact ⟨batch.get ⟨i, hi⟩, (hmem _).mpr ⟨i, hi, hni, rfl⟩, hx⟩
  have hinj : ∀ i j, ∀ hi : i < batch.length, ∀ hj : j < batch.length,
      recId (batch.get ⟨i, hi⟩) = recId (batch.get ⟨j, hj⟩) → i = j := by
    intro i j hi hj hij
    have hi2 : i < (batch.map recId).length := by simpa using hi
    have hj2 : j < (batch.map recId).length := by simpa using hj
    have h1 : (batch.map recId)[i] = (batch.map recId)[j] := by
      rw [List.getElem_map, List.getElem_map]
      simpa [List.get_eq_getElem] using hij
    exact (List.Nodup.getElem_inj_iff hnd).mp h1
  have hdisj : ∀ x : Int,
      x ∈ ((batch.enum.filter (fun p => p.1 ∉ errors.toFinset)).map Prod.snd).map recId →
        x ∉ st.existing := by
    intro x hx
    rcases (hmem_ids x).mp hx with ⟨i, hi, hni, rfl⟩
    exact hnew _ (batch.get_mem _ _)
  have hexist : (process_batch env off batch st).existing =
      st.existing ∪
        (((batch.enum.filter (fun p => p.1 ∉ errors.toFinset)).map Prod.snd).map recId).toFinset := by
    rw [hPB, reconcile_errors_existing, foldl_insert_eq_union]
  refine ⟨?_, ?_, ?_, ?_, ?_, ?_, ?_, ?_⟩
  · rw [hPB, reconcile_errors_total_failed]
  · rw [hPB, reconcile_errors_total_inserted]
  · intro i hi hni
    rw [hexist]
    refine Finset.mem_union_right _ (List.mem_toFinset.mpr ?_)
    exact (hmem_ids _).mpr ⟨i, hi, hni, rfl⟩
  · intro i hi hni hcontra
    rw [hexist] at hcontra
    rcases Finset.mem_union.mp hcontra with hL | hR
    · exact hnew _ (batch.get_mem _ _) hL
    · rcases (hmem_ids _).mp (List.mem_toFinset.mp hR) with ⟨j, hj, hjni, hjx⟩
      exact hjni (hinj j i hj hi hjx ▸ hni)
  · rw [hexist]
    rw [Finset.card_union_of_disjoint (Finset.disjoint_left.mpr
      (fun a ha hb2 => hdisj a (List.mem_toFinset.mp hb2) ha))]
    rw [List.toFinset_card_of_nodup hids_nodup, List.length_map, hlen]
  · intro hdel hcardlt
    refine ⟨((batch.enum.filter (fun p => p.1 ∉ errors.toFinset)).map Prod.snd).map recId,
      ?_, ?_, ?_⟩
    · rw [hPB, reconcile_errors_deleteCalls, if_pos ⟨by rw [hdel], by simp; omega⟩]
    · rw [List.length_map, hlen]
    · intro i hi
      constructor
      · intro hni
        exact (hmem_ids _).mpr ⟨i, hi, hni, rfl⟩
      · intro hin
        rcases (hmem_ids _).mp hin with ⟨j, hj, hjni, hjx⟩
        exact (hinj j i hj hi hjx) ▸ hjni
  · intro hdel hcardeq
    rw [hPB, reconcile_errors_deleteCalls,
      if_neg (fun hcond => by
        rcases hcond with ⟨h1, h2⟩
        simp at h2
        omega)]
    simp
  · intro hdel
    rw [hPB, reconcile_errors_deleteCalls,
      if_neg (fun hcond => by rw [hdel] at hcond; exact Bool.false_ne_true hcond.1)]
    simp

/-- A record with id 3, used in concrete scenarios. -/
def r3B : Record := [("id", Value.int 3)]

/-- A three-record all-new page for the C2 scenario. -/
def batchP : List Record := [r1B, r2B, r3B]

/-- An environment whose bulk insert reports a partial failure at index
1 and which has deletion-after-sync enabled. -/
def envP : SyncEnv :=
  { batchLimit := 1000, bufferMinutes := 2, lookbackDays := -1, now := 0,
    deleteSynced := true, odooModel := "sale.order", tableId := "proj.dataset.tbl",
    tableExists := true, sampleRecords := [], existing0 := ∅,
    fetchPage := fun _ _ _ => [], insertResult := fun _ => Except.ok [1],
    deleteOk := fun _ => true }

/-- Witness for C2: on the concrete page `[id 1, id 2, id 3]` with a
partial failure at index 1, the failed counter grows by the one failed
index, id 1 (index 0) is marked synced, id 2 (index 1) is not, and the
ExistingIdSet grows by exactly N−k = 2 ids. -/
theorem c2_partial_failure_witness :
    ((process_batch envP 0 batchP (initState ∅)).total_failed
        = (initState (∅ : Finset Int)).total_failed + (([1] : List Nat).toFinset.card : Int)) ∧
    (recId (batchP.get ⟨0, by decide⟩) ∈ (process_batch envP 0 batchP (initState ∅)).existing) ∧
    (recId (batchP.get ⟨1, by decide⟩) ∉ (process_batch envP 0 batchP (initState ∅)).existing) ∧
    ((process_batch envP 0 batchP (initState ∅)).existing.card
        = (initState (∅ : Finset Int)).existing.card
            + (batchP.length - ([1] : List Nat).toFinset.card)) := by
  have h := c2_partial_failure envP 0 batchP (initState ∅) [1]
    (by decide) rfl (by decide) (by decide) (by decide)
  exact ⟨h.1, h.2.2.1 0 (by decide) (by decide), h.2.2.2.1 1 (by decide) (by decide),
    h.2.2.2.2.1⟩
